import Mathlib

/-!
Shallow embedding of the Kegelbuch application's computational core
(settlement engine, configuration mutation, persistence contract,
saved-player roster), translated from the JavaScript sources:
`src/theme.js` (settlement engine and table handlers),
`src/components/KegelabendTable.jsx`, `src/config/defaultConfig.js`,
`src/services/storageService.js`, and `src/App.jsx`.

Modelling conventions:
- JavaScript numbers are modelled as `ℚ` (all amounts in play are small
  decimals, exactly representable as doubles; no rounding occurs in the code).
- Penalty counts are modelled as `ℤ` (the code can store negative values,
  see `handleStrafeChange`).
- JavaScript objects used as maps (`player.strafen`) are association lists
  `List (String × ℤ)`; `obj[k] || 0` becomes `(List.lookup k m).getD 0`.
- Fallible operations return `Except`.
-/

/-- A penalty definition (`strafe` entry of the configuration):
`{ id, label, description, preis, inverted }`.  A missing `inverted`
field in the JS literal is falsy, modelled as `false`. -/
structure Strafe where
  id : String
  label : String
  description : String
  preis : ℚ
  inverted : Bool
deriving DecidableEq, Repr

/-- A game-type definition (`spielarten` entry): `{ id, label, description }`. -/
structure Spielart where
  id : String
  label : String
  description : String
deriving DecidableEq, Repr

/-- The configuration object: entry fee, penalty list, game-type list,
currency symbol. -/
structure Config where
  startgebuehr : ℚ
  strafen : List Strafe
  spielarten : List Spielart
  waehrung : String
deriving DecidableEq, Repr

/-- An evening-scoped player record (`createEmptyPlayer` shape):
id, name, attendance flag, penalty counts, game results. -/
structure Spieler where
  id : String
  name : String
  anwesend : Bool
  strafen : List (String × ℤ)
  spiele : List (String × String)
deriving DecidableEq, Repr

/-- A bowling evening (`createEmptyKegelabend` shape). -/
structure Kegelabend where
  id : String
  datum : String
  spieler : List Spieler
  notizen : String
  abgeschlossen : Bool
deriving DecidableEq, Repr

/-- `player.strafen[id] || 0`: the stored count for a penalty id, with an
absent entry read as `0`. -/
def strafenCount (m : List (String × ℤ)) (k : String) : ℤ :=
  (List.lookup k m).getD 0

/-- The inner reduce of the inverted branch of `calculatePlayerTotal`
(`src/theme.js`): `allPlayers.filter(p => p.id !== player.id)
.reduce((sum, p) => sum + (p.strafen[strafe.id] || 0), 0)`. -/
def othersCount (player : Spieler) (allPlayers : List Spieler) (sid : String) : ℤ :=
  (allPlayers.filter (fun q => q.id ≠ player.id)).foldl
    (fun sum q => sum + strafenCount q.strafen sid) 0

/-- `calculatePlayerTotal(player, config, allPlayers)` from `src/theme.js`:
a reduce over `config.strafen` starting at `config.startgebuehr`; inverted
penalties charge the sum of the other players' counts, normal penalties
charge the player's own count. -/
def calculatePlayerTotal (player : Spieler) (config : Config)
    (allPlayers : List Spieler) : ℚ :=
  config.strafen.foldl
    (fun total strafe =>
      if strafe.inverted then
        total + (othersCount player allPlayers strafe.id : ℚ) * strafe.preis
      else
        total + (strafenCount player.strafen strafe.id : ℚ) * strafe.preis)
    config.startgebuehr

/-- The per-penalty summand of `calculatePlayerTotal` (the amount the reduce
adds for one penalty definition). -/
def strafeTerm (strafe : Strafe) (player : Spieler) (allPlayers : List Spieler) : ℚ :=
  if strafe.inverted then
    (othersCount player allPlayers strafe.id : ℚ) * strafe.preis
  else
    (strafenCount player.strafen strafe.id : ℚ) * strafe.preis

/-- `grandTotal` from `src/theme.js`: reduce of `calculatePlayerTotal` over
the evening's roster, starting at `0`. -/
def grandTotal (spieler : List Spieler) (config : Config) : ℚ :=
  spieler.foldl (fun sum player => sum + calculatePlayerTotal player config spieler) 0

section FoldHelpers

variable {α : Type} {M : Type} [AddCommMonoid M]

/-- A left fold that only accumulates additions is the initial value plus the
sum of the mapped list. -/
theorem foldl_add_eq (f : α → M) :
    ∀ (l : List α) (init : M),
      l.foldl (fun s x => s + f x) init = init + (l.map f).sum := by
  intro l
  induction l with
  | nil => intro init; simp
  | cons x xs ih =>
      intro init
      simp only [List.foldl_cons, List.map_cons, List.sum_cons, ih]
      rw [add_assoc]

/-- Summing a mapped list splits along a Boolean filter. -/
theorem sum_map_filter_split (f : α → M) (P : α → Bool) :
    ∀ l : List α,
      (l.map f).sum
        = ((l.filter (fun x => P x)).map f).sum
          + ((l.filter (fun x => !P x)).map f).sum := by
  intro l
  induction l with
  | nil => simp
  | cons x xs ih =>
      by_cases h : P x = true
      · simp [List.filter_cons, h, ih, add_assoc]
      · simp only [Bool.not_eq_true] at h
        simp [List.filter_cons, h, ih]
        rw [← add_assoc, add_comm (f x) (((xs.filter (fun x => P x)).map f).sum), add_assoc]

end FoldHelpers

/-- `calculatePlayerTotal` in closed form: the entry fee plus the sum of the
per-penalty terms. -/
theorem calculatePlayerTotal_eq_sum (player : Spieler) (config : Config)
    (allPlayers : List Spieler) :
    calculatePlayerTotal player config allPlayers
      = config.startgebuehr
        + (config.strafen.map (fun s => strafeTerm s player allPlayers)).sum := by
  unfold calculatePlayerTotal
  have h : (fun (total : ℚ) (strafe : Strafe) =>
      if strafe.inverted then
        total + (othersCount player allPlayers strafe.id : ℚ) * strafe.preis
      else
        total + (strafenCount player.strafen strafe.id : ℚ) * strafe.preis)
      = fun (total : ℚ) (strafe : Strafe) => total + strafeTerm strafe player allPlayers := by
    funext total strafe
    unfold strafeTerm
    by_cases hs : strafe.inverted = true <;> simp [hs]
  rw [h, foldl_add_eq]

/-- `othersCount` in closed form: the sum of the other players' stored counts. -/
theorem othersCount_eq_sum (player : Spieler) (allPlayers : List Spieler) (sid : String) :
    othersCount player allPlayers sid
      = ((allPlayers.filter (fun q => q.id ≠ player.id)).map
          (fun q => strafenCount q.strafen sid)).sum := by
  unfold othersCount
  rw [foldl_add_eq]
  simp

/-- Claim C1: for every player, configuration, and roster containing the
player, `calculatePlayerTotal` equals the entry fee, plus each non-inverted
penalty's own count times its unit price, plus each inverted penalty's
unit price times the summed counts of all players with a different id;
an id absent from the counts map reads as zero. -/
theorem claim_C1 (player : Spieler) (config : Config) (roster : List Spieler)
    (hmem : player ∈ roster) :
    (calculatePlayerTotal player config roster
      = config.startgebuehr
        + ((config.strafen.filter (fun s => !s.inverted)).map
            (fun s => (strafenCount player.strafen s.id : ℚ) * s.preis)).sum
        + ((config.strafen.filter (fun s => s.inverted)).map
            (fun s =>
              ((((roster.filter (fun q => q.id ≠ player.id)).map
                  (fun q => strafenCount q.strafen s.id)).sum : ℤ) : ℚ) * s.preis)).sum)
    ∧ (∀ (m : List (String × ℤ)) (k : String),
        List.lookup k m = none → strafenCount m k = 0) := by
  constructor
  · rw [calculatePlayerTotal_eq_sum,
      sum_map_filter_split (fun s => strafeTerm s player roster) (fun s => !s.inverted)]
    simp only [Bool.not_not]
    have h1 : (config.strafen.filter (fun s => !s.inverted)).map
        (fun s => strafeTerm s player roster)
        = (config.strafen.filter (fun s => !s.inverted)).map
            (fun s => (strafenCount player.strafen s.id : ℚ) * s.preis) := by
      apply List.map_congr_left
      intro s hs
      rw [List.mem_filter] at hs
      have hinv : s.inverted = false := by simpa using hs.2
      simp [strafeTerm, hinv]
    have h2 : (config.strafen.filter (fun s => s.inverted)).map
        (fun s => strafeTerm s player roster)
        = (config.strafen.filter (fun s => s.inverted)).map
            (fun s =>
              ((((roster.filter (fun q => q.id ≠ player.id)).map
                  (fun q => strafenCount q.strafen s.id)).sum : ℤ) : ℚ) * s.preis) := by
      apply List.map_congr_left
      intro s hs
      rw [List.mem_filter] at hs
      have hinv : s.inverted = true := by simpa using hs.2
      simp [strafeTerm, hinv, othersCount_eq_sum]
    rw [h1, h2, add_assoc]
  · intro m k h
    simp [strafenCount, h]

/-- The configuration of the spec's concrete scenario: entry fee 6, penalty
`kalle` (price 1/2, normal), penalty `kranz` (price 1/2, inverted). -/
def cfgC2 : Config :=
  { startgebuehr := 6
  , strafen :=
      [ { id := "kalle", label := "Kalle", description := "", preis := 1/2, inverted := false }
      , { id := "kranz", label := "Kranz", description := "", preis := 1/2, inverted := true } ]
  , spielarten := []
  , waehrung := "€" }

/-- Player A of the concrete scenario: kalle count 2, kranz count 1. -/
def spielerA : Spieler :=
  { id := "a", name := "A", anwesend := true
  , strafen := [("kalle", 2), ("kranz", 1)], spiele := [] }

/-- Player B of the concrete scenario: all counts zero (empty counts map). -/
def spielerB : Spieler :=
  { id := "b", name := "B", anwesend := true, strafen := [], spiele := [] }

/-- Claim C2: in the concrete two-player scenario, A owes 7.0, B owes 6.5,
and the grand total is 13.5. -/
theorem claim_C2 :
    calculatePlayerTotal spielerA cfgC2 [spielerA, spielerB] = 7
    ∧ calculatePlayerTotal spielerB cfgC2 [spielerA, spielerB] = 13/2
    ∧ grandTotal [spielerA, spielerB] cfgC2 = 27/2 := by
  refine ⟨?_, ?_, ?_⟩ <;>
    · simp [calculatePlayerTotal, grandTotal, othersCount, strafenCount,
        cfgC2, spielerA, spielerB, List.lookup]
      norm_num

/-- Claim C3: the grand total is the sum of the per-player totals over the
roster, and is 0 for the empty roster; both functions are total. -/
theorem claim_C3 (config : Config) (roster : List Spieler) :
    grandTotal roster config
      = (roster.map (fun p => calculatePlayerTotal p config roster)).sum
    ∧ grandTotal [] config = 0 := by
  constructor
  · unfold grandTotal
    rw [foldl_add_eq]
    simp
  · rfl

/-- Witness for claim C1 at the concrete two-player scenario. -/
theorem claim_C1_witness :
    calculatePlayerTotal spielerA cfgC2 [spielerA, spielerB]
      = cfgC2.startgebuehr
        + ((cfgC2.strafen.filter (fun s => !s.inverted)).map
            (fun s => (strafenCount spielerA.strafen s.id : ℚ) * s.preis)).sum
        + ((cfgC2.strafen.filter (fun s => s.inverted)).map
            (fun s =>
              (((([spielerA, spielerB].filter (fun q => q.id ≠ spielerA.id)).map
                  (fun q => strafenCount q.strafen s.id)).sum : ℤ) : ℚ) * s.preis)).sum :=
  (claim_C1 spielerA cfgC2 [spielerA, spielerB] (List.mem_cons_self _ _)).1

/-- Replacing one roster entry by a record with the same id changes the
"others" sum seen by a player with a different id by the difference of the
stored counts. -/
theorem othersCount_replace (p t t' : Spieler) (r1 r2 : List Spieler) (sid : String)
    (hid : t'.id = t.id) (hp : p.id ≠ t.id) :
    othersCount p (r1 ++ t' :: r2) sid
      = othersCount p (r1 ++ t :: r2) sid
        + (strafenCount t'.strafen sid - strafenCount t.strafen sid) := by
  have ht : t.id ≠ p.id := fun h => hp h.symm
  have ht' : t'.id ≠ p.id := by rw [hid]; exact ht
  rw [othersCount_eq_sum, othersCount_eq_sum, List.filter_append, List.filter_append,
    List.filter_cons, List.filter_cons, if_pos (show (decide ¬(t'.id = p.id)) = true by
      simpa using ht'), if_pos (show (decide ¬(t.id = p.id)) = true by simpa using ht)]
  simp only [List.map_append, List.sum_append, List.map_cons, List.sum_cons]
  ring

/-- Summing a mapped pointwise addition splits into two sums. -/
theorem sum_map_add' {α M : Type} [AddCommMonoid M] (f g : α → M) :
    ∀ L : List α, (L.map (fun x => f x + g x)).sum = (L.map f).sum + (L.map g).sum := by
  intro L
  induction L with
  | nil => simp
  | cons x xs ih =>
      simp only [List.map_cons, List.sum_cons, ih]
      rw [add_add_add_comm]

/-- On a duplicate-free list containing `d`, summing an indicator of `d`
yields the single value `c`. -/
theorem sum_map_ite_single {α M : Type} [AddCommMonoid M] [DecidableEq α] (d : α) (c : M) :
    ∀ L : List α, L.Nodup → d ∈ L →
      (L.map (fun s => if s = d then c else 0)).sum = c := by
  intro L
  induction L with
  | nil => intro _ h; cases h
  | cons x xs ih =>
      intro hnodup hd
      have hx : x ∉ xs := (List.nodup_cons.mp hnodup).1
      rcases List.mem_cons.mp hd with h | h
      · subst h
        have hzero : (xs.map (fun s => if s = d then c else 0)).sum = 0 := by
          apply List.sum_eq_zero
          intro y hy
          rcases List.mem_map.mp hy with ⟨s, hs, rfl⟩
          have : s ≠ d := fun h => hx (h ▸ hs)
          simp [this]
        rw [List.map_cons, List.sum_cons, if_pos rfl, hzero, add_zero]
      · have hxd : x ≠ d := fun hxe => hx (hxe ▸ h)
        simp only [List.map_cons, List.sum_cons, if_neg hxd, zero_add]
        exact ih (List.nodup_cons.mp hnodup).2 h

/-- Claim C4: bumping one player's count for an inverted penalty `d` by one
(same id, all other counts fixed) raises every differently-identified
player's total by exactly `d.preis`, and leaves the triggering player's own
`d`-contribution unchanged. -/
theorem claim_C4 (config : Config) (d : Strafe) (r1 r2 : List Spieler) (t t' p : Spieler)
    (hd : d ∈ config.strafen) (hinv : d.inverted = true)
    (hnodup : (config.strafen.map Strafe.id).Nodup)
    (hid : t'.id = t.id)
    (hbump : strafenCount t'.strafen d.id = strafenCount t.strafen d.id + 1)
    (hother : ∀ k, k ≠ d.id → strafenCount t'.strafen k = strafenCount t.strafen k)
    (hsize : 2 ≤ (r1 ++ t :: r2).length)
    (hp : p.id ≠ t.id) :
    calculatePlayerTotal p config (r1 ++ t' :: r2)
      = calculatePlayerTotal p config (r1 ++ t :: r2) + d.preis
    ∧ strafeTerm d t' (r1 ++ t' :: r2) = strafeTerm d t (r1 ++ t :: r2) := by
  constructor
  · rw [calculatePlayerTotal_eq_sum, calculatePlayerTotal_eq_sum]
    have hcongr : config.strafen.map (fun s => strafeTerm s p (r1 ++ t' :: r2))
        = config.strafen.map
            (fun s => strafeTerm s p (r1 ++ t :: r2) + if s = d then d.preis else 0) := by
      apply List.map_congr_left
      intro s hs
      by_cases hsd : s = d
      · subst hsd
        rw [if_pos rfl]
        simp only [strafeTerm, hinv, if_pos]
        rw [othersCount_replace p t t' r1 r2 s.id hid hp, hbump]
        push_cast
        ring
      · rw [if_neg hsd, add_zero]
        by_cases hsi : s.inverted = true
        · have hids : s.id ≠ d.id := by
            intro hide
            exact hsd (List.inj_on_of_nodup_map hnodup hs hd hide)
          simp only [strafeTerm, hsi, if_pos]
          rw [othersCount_replace p t t' r1 r2 s.id hid hp, hother s.id hids]
          push_cast
          ring
        · have hsi' : s.inverted = false := by simpa using hsi
          simp [strafeTerm, hsi']
    rw [hcongr, sum_map_add',
      sum_map_ite_single d d.preis config.strafen (List.Nodup.of_map _ hnodup) hd]
    ring
  · have ht'self : t'.id ≠ t'.id ↔ False := by simp
    simp only [strafeTerm, hinv, if_pos]
    rw [othersCount_eq_sum, othersCount_eq_sum, List.filter_append, List.filter_append,
      List.filter_cons, List.filter_cons]
    simp [hid]

/-- Player B after throwing one Kranz (the inverted penalty): same id, kranz
count raised from 0 to 1. -/
def spielerBbump : Spieler :=
  { id := "b", name := "B", anwesend := true, strafen := [("kranz", 1)], spiele := [] }

/-- Witness for claim C4: bumping B's kranz count by one raises A's total by
the kranz unit price and leaves B's own kranz contribution unchanged. -/
theorem claim_C4_witness :
    (calculatePlayerTotal spielerA cfgC2 [spielerA, spielerBbump]
      = calculatePlayerTotal spielerA cfgC2 [spielerA, spielerB] + 1/2)
    ∧ strafeTerm ⟨"kranz", "Kranz", "", 1/2, true⟩ spielerBbump [spielerA, spielerBbump]
        = strafeTerm ⟨"kranz", "Kranz", "", 1/2, true⟩ spielerB [spielerA, spielerB] := by
  have h := claim_C4 cfgC2 ⟨"kranz", "Kranz", "", 1/2, true⟩ [spielerA] []
    spielerB spielerBbump spielerA
    (by simp [cfgC2]) rfl (by decide) rfl (by decide)
    (by
      intro k hk
      have hk' : (k == "kranz") = false := beq_eq_false_iff_ne.mpr hk
      simp [strafenCount, List.lookup, hk'])
    (by simp) (by decide)
  exact h

/-- The whitespace class used by the JS runtime for `parseInt`, `trim` and
the regex class in penalty id derivation (ASCII portion). -/
def isJsSpace (c : Char) : Bool :=
  c == ' ' || c == '\t' || c == '\n' || c == '\r' || c == '\x0b' || c == '\x0c'

/-- Model of JavaScript `parseInt(s, 10)`: skip leading whitespace, read an
optional sign and then the longest leading run of decimal digits; `none`
models the `NaN` result when no digit is found. -/
def jsParseInt (s : String) : Option ℤ :=
  let cs := s.data.dropWhile isJsSpace
  let signAndRest : ℤ × List Char :=
    match cs with
    | '-' :: r => (-1, r)
    | '+' :: r => (1, r)
    | r => (1, r)
  let ds := signAndRest.2.takeWhile Char.isDigit
  if ds.isEmpty then none
  else some (signAndRest.1 * (ds.foldl (fun n c => 10 * n + ((c.toNat - '0'.toNat : ℕ) : ℤ)) 0))

/-- JS object spread `{ ...m, [k]: v }` on a string-keyed map: replace the
entry for `k` if present, otherwise append it. -/
def setKey (m : List (String × ℤ)) (k : String) (v : ℤ) : List (String × ℤ) :=
  match m with
  | [] => [(k, v)]
  | (k', v') :: rest => if k' = k then (k, v) :: rest else (k', v') :: setKey rest k v

/-- `handleStrafeChange(playerId, strafeId, value)` from `src/theme.js`:
`const numValue = parseInt(value, 10) || 0;` (so `NaN` becomes 0) and then
the count is stored for the matching player. -/
def handleStrafeChange (kegelabend : Kegelabend) (playerId strafeId value : String) :
    Kegelabend :=
  let numValue : ℤ := (jsParseInt value).getD 0
  { kegelabend with
      spieler := kegelabend.spieler.map (fun p =>
        if p.id = playerId then { p with strafen := setKey p.strafen strafeId numValue }
        else p) }

/-- A one-player evening used to exercise `handleStrafeChange`. -/
def abendC5 : Kegelabend :=
  { id := "e1", datum := "2024-01-01"
  , spieler := [{ id := "p1", name := "P", anwesend := true, strafen := [], spiele := [] }]
  , notizen := "", abgeschlossen := false }

/-- Counterexample to claim C5: entering `"-3"` stores the count `-3`, not
`0` — `parseInt("-3", 10) || 0` evaluates to `-3`, which is truthy. -/
theorem claim_C5_counterexample :
    ((handleStrafeChange abendC5 "p1" "kalle" "-3").spieler.map
        (fun p => strafenCount p.strafen "kalle")) = [-3]
    ∧ (-3 : ℤ) ≠ 0 := by
  constructor
  · rfl
  · decide

/-- `setKey` stores the value it was given under the requested key. -/
theorem lookup_setKey_self (k : String) (v : ℤ) :
    ∀ m : List (String × ℤ), List.lookup k (setKey m k v) = some v := by
  intro m
  induction m with
  | nil => simp [setKey, List.lookup]
  | cons kv rest ih =>
      obtain ⟨k', v'⟩ := kv
      by_cases h : k' = k
      · simp [setKey, h, List.lookup]
      · have hne : (k == k') = false := beq_eq_false_iff_ne.mpr (fun he => h he.symm)
        simp [setKey, h, List.lookup, hne, ih]

/-- Claim C5 as amended: `handleStrafeChange` never throws, is a no-op when
no player carries the given id, and stores `parseInt(value, 10) || 0` for
every player carrying the id — so non-numeric input is coerced to 0 while
negative input is stored as the parsed negative integer. -/
theorem claim_C5_amended (kegelabend : Kegelabend) (playerId strafeId value : String) :
    ((∀ p ∈ kegelabend.spieler, p.id ≠ playerId) →
      handleStrafeChange kegelabend playerId strafeId value = kegelabend)
    ∧ (∀ p' ∈ (handleStrafeChange kegelabend playerId strafeId value).spieler,
        p'.id = playerId →
          strafenCount p'.strafen strafeId = (jsParseInt value).getD 0)
    ∧ (jsParseInt value = none → (jsParseInt value).getD 0 = 0) := by
  refine ⟨?_, ?_, ?_⟩
  · intro hnone
    have hmap : kegelabend.spieler.map (fun p =>
        if p.id = playerId then
          { p with strafen := setKey p.strafen strafeId ((jsParseInt value).getD 0) }
        else p) = kegelabend.spieler := by
      have hid : kegelabend.spieler.map (fun p =>
          if p.id = playerId then
            { p with strafen := setKey p.strafen strafeId ((jsParseInt value).getD 0) }
          else p) = kegelabend.spieler.map id := by
        apply List.map_congr_left
        intro p hp
        simp [hnone p hp]
      rw [hid, List.map_id]
    show ({ kegelabend with
        spieler := kegelabend.spieler.map (fun p =>
          if p.id = playerId then
            { p with strafen := setKey p.strafen strafeId ((jsParseInt value).getD 0) }
          else p) } : Kegelabend) = kegelabend
    rw [hmap]
  · intro p' hp' hpid
    unfold handleStrafeChange at hp'
    simp only at hp'
    rcases List.mem_map.mp hp' with ⟨p, hp, rfl⟩
    by_cases h : p.id = playerId
    · simp only [if_pos h]
      unfold strafenCount
      rw [lookup_setKey_self]
      rfl
    · rw [if_neg h] at hpid
      exact absurd hpid h
  · intro h
    rw [h]
    rfl

/-- Witness for the amended claim C5: changing a penalty for an id absent
from the roster leaves the evening untouched. -/
theorem claim_C5_amended_witness :
    handleStrafeChange abendC5 "zz" "kalle" "7" = abendC5 :=
  (claim_C5_amended abendC5 "zz" "kalle" "7").1 (by decide)

/-- Leading-whitespace removal on the character list (left half of JS
`String.prototype.trim`). -/
def trimLeftL (l : List Char) : List Char := l.dropWhile isJsSpace

/-- Trailing-whitespace removal on the character list (right half of JS
`String.prototype.trim`). -/
def trimRightL (l : List Char) : List Char := (l.reverse.dropWhile isJsSpace).reverse

/-- Model of JavaScript `s.trim()`: drop whitespace from both ends. -/
def jsTrim (s : String) : String := ⟨trimRightL (trimLeftL s.data)⟩

/-- One pass of the JS regex replace `/\s+/g → "_"`: each maximal whitespace
run becomes a single underscore; `prevWs` records whether the previous
character belonged to a run already replaced. -/
def collapseWs (prevWs : Bool) : List Char → List Char
  | [] => []
  | c :: cs =>
      if isJsSpace c then
        if prevWs then collapseWs true cs else '_' :: collapseWs true cs
      else c :: collapseWs false cs

/-- Characters kept by the strip step `replace(/[^a-z0-9_]/g, '')`. -/
def isIdChar (c : Char) : Bool :=
  c == '_' || ('a' ≤ c && c ≤ 'z') || ('0' ≤ c && c ≤ '9')

/-- Penalty id derivation from `handleAddPenalty` in `src/App.jsx`:
`label.toLowerCase().replace(/\s+/g, '_').replace(/[^a-z0-9_]/g, '')`. -/
def deriveId (label : String) : String :=
  ⟨(collapseWs false (label.data.map Char.toLower)).filter isIdChar⟩

/-- The outcomes of `handleAddPenalty` that leave the configuration
unchanged: a blank label (silent early return) or a colliding derived id
(the "Strafe existiert bereits!" error path). -/
inductive AddPenaltyError where
  | emptyLabel
  | duplicateId
deriving DecidableEq, Repr

/-- `handleAddPenalty` from `src/App.jsx`: reject a blank label, derive the
id from the label, fail when a penalty with that id exists, otherwise append
the new penalty at the end of the list. -/
def handleAddPenalty (config : Config) (label description : String)
    (preis : ℚ) (inverted : Bool) : Except AddPenaltyError Config :=
  if jsTrim label = "" then .error .emptyLabel
  else
    let id := deriveId label
    if config.strafen.any (fun s => s.id == id) then .error .duplicateId
    else .ok { config with
      strafen := config.strafen ++ [⟨id, label, description, preis, inverted⟩] }

/-- Claim C6: with a non-blank label, `handleAddPenalty` derives the id
deterministically from the label via `deriveId`; on an id collision it fails
with `duplicateId` and the configuration is unchanged (no `ok` state is
produced), otherwise it appends the new penalty at the end. -/
theorem claim_C6 (config : Config) (label description : String)
    (preis : ℚ) (inverted : Bool) (hlabel : jsTrim label ≠ "") :
    (config.strafen.any (fun s => s.id == deriveId label) = true →
      handleAddPenalty config label description preis inverted = .error .duplicateId)
    ∧ (config.strafen.any (fun s => s.id == deriveId label) = false →
      handleAddPenalty config label description preis inverted
        = .ok { config with
            strafen := config.strafen
              ++ [⟨deriveId label, label, description, preis, inverted⟩] }) := by
  constructor <;> intro h <;> simp [handleAddPenalty, hlabel, h]

/-- The shipped default configuration from `src/config/defaultConfig.js`. -/
def defaultConfig : Config :=
  { startgebuehr := 6
  , strafen :=
      [ ⟨"kalle", "Kalle", "Ball ins Aus", 1/2, false⟩
      , ⟨"stina", "Stina", "Mittlere 3 Pins", 1/2, false⟩
      , ⟨"verspaetung", "Verspätung", "Zu spät gekommen", 1, false⟩
      , ⟨"verloren", "Spiel verloren", "Verlorenes Spiel", 1/2, false⟩
      , ⟨"kranz", "Kranz", "Kranz geworfen - alle anderen zahlen", 1/2, true⟩
      , ⟨"volle", "Volle", "Volle geworfen - alle anderen zahlen", 1/2, true⟩ ]
  , spielarten :=
      [ ⟨"wm", "WM", "Wachtberg Meisterschaft"⟩
      , ⟨"gs", "GS", "Geldspiel"⟩ ]
  , waehrung := "€" }

/-- Witness for claim C6: re-adding the label "Kalle" derives the existing
id "kalle" and is rejected as a duplicate. -/
theorem claim_C6_witness :
    handleAddPenalty defaultConfig "Kalle" "nochmal" (1/4) false
      = .error .duplicateId :=
  (claim_C6 defaultConfig "Kalle" "nochmal" (1/4) false (by decide)).1 (by decide)

/-- The startup merge from the `useEffect` in `src/App.jsx`:
`{ ...savedConfig, strafen: defaultConfig.strafen, spielarten:
defaultConfig.spielarten }`. -/
def mergedConfig (savedConfig : Config) : Config :=
  { savedConfig with
      strafen := defaultConfig.strafen
    , spielarten := defaultConfig.spielarten }

/-- The configuration the app starts with: `loadConfig(defaultConfig)`
(the persisted configuration, or the defaults when none is persisted)
followed by the merge. -/
def loadConfigApp (stored : Option Config) : Config :=
  mergedConfig (stored.getD defaultConfig)

/-- Claim C9: on every startup load, penalties and game types come from the
shipped defaults — whatever was persisted for them is overwritten — while
the persisted entry fee and currency symbol survive the merge. -/
theorem claim_C9 (stored : Option Config) :
    (loadConfigApp stored).strafen = defaultConfig.strafen
    ∧ (loadConfigApp stored).spielarten = defaultConfig.spielarten
    ∧ (loadConfigApp stored).startgebuehr = (stored.getD defaultConfig).startgebuehr
    ∧ (loadConfigApp stored).waehrung = (stored.getD defaultConfig).waehrung :=
  ⟨rfl, rfl, rfl, rfl⟩

/-- JSON values, the data `JSON.parse`/`JSON.stringify` exchange.  Numbers
are modelled as `ℚ`; serialization (`stringify` then `parse`) is the
identity on such values, so the model works on values directly. -/
inductive JVal where
  | null
  | bool (b : Bool)
  | num (q : ℚ)
  | str (s : String)
  | arr (elems : List JVal)
  | obj (fields : List (String × JVal))

/-- JavaScript truthiness of a JSON value: `null`, `false`, `0` and `""`
are falsy; arrays and objects (even empty ones) are truthy. -/
def truthy : JVal → Bool
  | .null => false
  | .bool b => b
  | .num q => q != 0
  | .str s => s != ""
  | .arr _ => true
  | .obj _ => true

/-- Property access `d[k]` on a parsed JSON value: objects yield the value
stored under `k` (last duplicate key wins, as in `JSON.parse`), everything
else yields `undefined`, modelled as `none`. -/
def getField : JVal → String → Option JVal
  | .obj fields, k => List.lookup k fields.reverse
  | _, _ => none

/-- The three LocalStorage slots of `storageService.js`
(`kegelbuch_kegelabende`, `kegelbuch_config`, `kegelbuch_spieler`);
`none` models an absent key. -/
structure Storage where
  kegelabende : Option JVal
  config : Option JVal
  spieler : Option JVal

/-- `loadKegelabende()`: the stored evenings or the default `[]`. -/
def loadKegelabende (st : Storage) : JVal := st.kegelabende.getD (.arr [])

/-- `loadSpieler()`: the stored players or the default `[]`. -/
def loadSpieler (st : Storage) : JVal := st.spieler.getD (.arr [])

/-- `loadFromStorage(STORAGE_KEYS.CONFIG)` with the implicit default
`null`, as the export path calls it. -/
def loadConfigRaw (st : Storage) : JVal := st.config.getD .null

/-- `loadConfig(default)`: the stored configuration or the caller's
default. -/
def loadConfigStore (st : Storage) (dflt : JVal) : JVal := st.config.getD dflt

/-- The snapshot document built by `exportToJSON` in `storageService.js`:
`{ kegelabende, config, spieler, exportDatum, version: "1.0" }`. -/
def exportToJSON (st : Storage) (exportDatum : String) : JVal :=
  .obj
    [ ("kegelabende", loadKegelabende st)
    , ("config", loadConfigRaw st)
    , ("spieler", loadSpieler st)
    , ("exportDatum", .str exportDatum)
    , ("version", .str "1.0") ]

/-- The import failure: the promise rejection `Invalid JSON file`. -/
inductive ImportError where
  | parseError
deriving DecidableEq, Repr

/-- One `if (data.key) save(data.key)` step of `importFromJSON`: the store
slot is overwritten only when the accessed field is truthy (an absent key
reads as the falsy `undefined`). -/
def applyKey (cur fld : Option JVal) : Option JVal :=
  match fld with
  | some v => if truthy v then some v else cur
  | none => cur

/-- `importFromJSON` from `storageService.js`, applied to the outcome of
`JSON.parse` (`none` models a parse throw).  A parsed `null` also lands in
the catch block — `data.kegelabende` throws a `TypeError` on `null` — and
rejects without touching any store.  On success the promise resolves with
the parsed data and the three slots updated by their `if` guards, in
program order, before any result is returned. -/
def importFromJSON (parsed : Option JVal) (st : Storage) :
    Except ImportError (JVal × Storage) :=
  match parsed with
  | none => .error .parseError
  | some .null => .error .parseError
  | some d =>
      .ok (d,
        { kegelabende := applyKey st.kegelabende (getField d "kegelabende")
        , config := applyKey st.config (getField d "config")
        , spieler := applyKey st.spieler (getField d "spieler") })

/-- A storage state whose evenings slot holds data, for the C7
counterexample. -/
def stC7 : Storage :=
  { kegelabende := some (.str "old"), config := none, spieler := none }

/-- An import document whose `kegelabende` key is present but `null`. -/
def docC7 : JVal := .obj [("kegelabende", JVal.null)]

/-- Counterexample to claim C7: the key `kegelabende` is present in the
parsed document (with value `null`), yet the import succeeds without
overwriting the evenings store — the code tests truthiness, not key
presence. -/
theorem claim_C7_counterexample :
    getField docC7 "kegelabende" = some JVal.null
    ∧ importFromJSON (some docC7) stC7 = .ok (docC7, stC7)
    ∧ stC7.kegelabende ≠ some JVal.null := by
  refine ⟨rfl, rfl, fun h => ?_⟩
  have h' : JVal.str "old" = JVal.null := Option.some.inj h
  cases h'

/-- Claim C7 as amended: a parse failure rejects with `parseError` and, the
saves being inside the same `try` after the parse, no store is touched; for
a parsed object, each of the three stores is fully overwritten exactly when
its key is present with a truthy value, and is left untouched when the key
is absent or its value is falsy (`null`, `false`, `0`, `""`). -/
theorem claim_C7_amended (st : Storage) (fields : List (String × JVal)) :
    importFromJSON none st = .error .parseError
    ∧ ∃ st', importFromJSON (some (.obj fields)) st = .ok (.obj fields, st')
        ∧ ((getField (.obj fields) "kegelabende" = none →
              st'.kegelabende = st.kegelabende)
          ∧ ∀ v, getField (.obj fields) "kegelabende" = some v →
              (truthy v = true → st'.kegelabende = some v)
              ∧ (truthy v = false → st'.kegelabende = st.kegelabende))
        ∧ ((getField (.obj fields) "config" = none → st'.config = st.config)
          ∧ ∀ v, getField (.obj fields) "config" = some v →
              (truthy v = true → st'.config = some v)
              ∧ (truthy v = false → st'.config = st.config))
        ∧ ((getField (.obj fields) "spieler" = none → st'.spieler = st.spieler)
          ∧ ∀ v, getField (.obj fields) "spieler" = some v →
              (truthy v = true → st'.spieler = some v)
              ∧ (truthy v = false → st'.spieler = st.spieler)) := by
  refine ⟨rfl, ⟨_, rfl, ?_, ?_, ?_⟩⟩ <;>
    exact ⟨fun h => by simp [applyKey, h],
      fun v hv => ⟨fun ht => by simp [applyKey, hv, ht],
        fun ht => by simp [applyKey, hv, ht]⟩⟩

/-- Witness for the amended claim C7: a failed parse rejects and a document
with a truthy `kegelabende` array overwrites only that store. -/
theorem claim_C7_amended_witness :
    importFromJSON none stC7 = .error .parseError :=
  (claim_C7_amended stC7 []).1

/-- An export default that is truthy (the `[]` of the evenings and players
loads) survives the round trip observationally. -/
theorem applyKey_roundtrip_truthy (o : Option JVal) (dflt : JVal)
    (ht : truthy dflt = true) :
    (applyKey o (some (o.getD dflt))).getD dflt = o.getD dflt := by
  cases o with
  | none => simp [applyKey, ht]
  | some v => by_cases hv : truthy v = true <;> simp [applyKey, hv]

/-- An export default that is falsy (the `null` of the config load) leaves
the slot untouched, so any later load with any default is unchanged. -/
theorem applyKey_roundtrip_falsy (o : Option JVal) (dflt d' : JVal)
    (hf : truthy dflt = false) :
    (applyKey o (some (o.getD dflt))).getD d' = o.getD d' := by
  cases o with
  | none => simp [applyKey, hf]
  | some v => by_cases hv : truthy v = true <;> simp [applyKey, hv]

/-- Claim C8: importing an exported snapshot succeeds and restores evenings,
configuration and saved players observationally — every subsequent load
(with the app's defaults) returns exactly what it returned at export time,
for every storage state. -/
theorem claim_C8 (st : Storage) (datum : String) (dflt : JVal) :
    ∃ st', importFromJSON (some (exportToJSON st datum)) st
        = .ok (exportToJSON st datum, st')
      ∧ loadKegelabende st' = loadKegelabende st
      ∧ loadConfigStore st' dflt = loadConfigStore st dflt
      ∧ loadSpieler st' = loadSpieler st := by
  refine ⟨_, rfl, ?_, ?_, ?_⟩
  · exact applyKey_roundtrip_truthy st.kegelabende (.arr []) rfl
  · exact applyKey_roundtrip_falsy st.config .null dflt rfl
  · exact applyKey_roundtrip_truthy st.spieler (.arr []) rfl

/-- The UTF-16 code units of a string, the units JavaScript compares when
sorting strings with the default comparator. -/
def utf16Units (s : String) : List ℕ :=
  (s.data.map (fun c =>
    if c.toNat < 0x10000 then [c.toNat]
    else [0xD800 + (c.toNat - 0x10000) / 0x400, 0xDC00 + (c.toNat - 0x10000) % 0x400])).flatten

/-- Lexicographic comparison of code-unit sequences. -/
def leList : List ℕ → List ℕ → Bool
  | [], _ => true
  | _ :: _, [] => false
  | a :: as, b :: bs => if a < b then true else if b < a then false else leList as bs

/-- JavaScript's default string comparison, as used by `Array.prototype.sort`
with no comparator: lexicographic on UTF-16 code units. -/
def jsLe (a b : String) : Bool := leList (utf16Units a) (utf16Units b)

/-- `jsLe` as a relation. -/
def jsLeP (a b : String) : Prop := jsLe a b = true

/-- `leList` is total. -/
theorem leList_total : ∀ as bs : List ℕ, leList as bs = true ∨ leList bs as = true := by
  intro as
  induction as with
  | nil => intro bs; left; rfl
  | cons a as ih =>
      intro bs
      cases bs with
      | nil => right; rfl
      | cons b bs =>
          by_cases h1 : a < b
          · left
            simp [leList, h1]
          · by_cases h2 : b < a
            · right
              simp [leList, h2, Nat.lt_asymm h2]
            · have hab : a = b := Nat.le_antisymm (Nat.le_of_not_lt h2) (Nat.le_of_not_lt h1)
              subst hab
              rcases ih bs with h | h
              · left
                simp [leList, h]
              · right
                simp [leList, h]

/-- `leList` is transitive. -/
theorem leList_trans : ∀ as bs cs : List ℕ,
    leList as bs = true → leList bs cs = true → leList as cs = true := by
  intro as
  induction as with
  | nil => intros; rfl
  | cons a as ih =>
      intro bs cs h1 h2
      cases bs with
      | nil => simp [leList] at h1
      | cons b bs =>
          cases cs with
          | nil => simp [leList] at h2
          | cons c cs =>
              simp only [leList] at h1 h2 ⊢
              by_cases hab : a < b
              · by_cases hbc : b < c
                · have : a < c := Nat.lt_trans hab hbc
                  simp [this]
                · by_cases hcb : c < b
                  · simp [hbc, hcb] at h2
                  · have : b = c := Nat.le_antisymm (Nat.le_of_not_lt hcb) (Nat.le_of_not_lt hbc)
                    subst this
                    simp [hab]
              · by_cases hba : b < a
                · simp [hab, hba] at h1
                · have hab' : a = b := Nat.le_antisymm (Nat.le_of_not_lt hba) (Nat.le_of_not_lt hab)
                  subst hab'
                  simp [lt_irrefl] at h1
                  by_cases hbc : a < c
                  · simp [hbc]
                  · by_cases hcb : c < a
                    · simp [hbc, hcb] at h2
                    · have : a = c := Nat.le_antisymm (Nat.le_of_not_lt hcb) (Nat.le_of_not_lt hbc)
                      subst this
                      simp [lt_irrefl] at h2 ⊢
                      exact ih bs cs h1 h2

instance : DecidableRel jsLeP := fun a b => by
  unfold jsLeP
  infer_instance

instance : IsTotal String jsLeP := ⟨fun a b => leList_total (utf16Units a) (utf16Units b)⟩

instance : IsTrans String jsLeP :=
  ⟨fun a b c => leList_trans (utf16Units a) (utf16Units b) (utf16Units c)⟩

/-- Model of `[...prev, trimmed].sort()`: the sorted permutation of the
array under the default string comparator. -/
def jsSort (l : List String) : List String := List.insertionSort jsLeP l

/-- `addSavedPlayer` from `src/App.jsx`: trim the name; ignore blank input;
ignore a name already in the list; otherwise append and sort. -/
def addSavedPlayer (prev : List String) (name : String) : List String :=
  let trimmed := jsTrim name
  if trimmed = "" then prev
  else if trimmed ∈ prev then prev
  else jsSort (prev ++ [trimmed])

/-- `removeSavedPlayer` from `src/App.jsx`: filter the name out. -/
def removeSavedPlayer (prev : List String) (name : String) : List String :=
  prev.filter (fun p => p ≠ name)

/-- One user action on the saved-players roster. -/
inductive SavedOp where
  | add (name : String)
  | remove (name : String)

/-- Apply one roster action. -/
def applySavedOp (l : List String) : SavedOp → List String
  | .add name => addSavedPlayer l name
  | .remove name => removeSavedPlayer l name

/-- Run a sequence of roster actions from the empty roster. -/
def runSavedOps (ops : List SavedOp) : List String :=
  ops.foldl applySavedOp []

/-- The saved-players invariant: no duplicates, sorted in JS default string
order, and every entry is a non-empty name equal to its own trim (hence not
whitespace-only). -/
def savedInv (l : List String) : Prop :=
  l.Nodup ∧ l.Pairwise jsLeP ∧ ∀ x ∈ l, jsTrim x = x ∧ x ≠ ""

/-- Dropping a prefix by predicate twice is dropping it once. -/
theorem dropWhile_idem {α : Type} (p : α → Bool) (l : List α) :
    (l.dropWhile p).dropWhile p = l.dropWhile p := by
  induction l with
  | nil => rfl
  | cons x xs ih =>
      by_cases h : p x = true
      · simp [List.dropWhile_cons, h, ih]
      · simp [List.dropWhile_cons, h]

/-- The head surviving `dropWhile` fails the predicate. -/
theorem head?_dropWhile_false {α : Type} (p : α → Bool) :
    ∀ (l : List α) (x : α), (l.dropWhile p).head? = some x → p x = false := by
  intro l
  induction l with
  | nil => intro x hx; simp at hx
  | cons y ys ih =>
      intro x hx
      by_cases h : p y = true
      · rw [List.dropWhile_cons, if_pos h] at hx
        exact ih x hx
      · rw [List.dropWhile_cons, if_neg h] at hx
        have : y = x := by simpa using hx
        subst this
        simpa using h

/-- `dropWhile` is the identity when the head already fails the predicate. -/
theorem dropWhile_eq_self_of_head {α : Type} (p : α → Bool) (l : List α)
    (h : ∀ x, l.head? = some x → p x = false) : l.dropWhile p = l := by
  cases l with
  | nil => rfl
  | cons y ys =>
      have := h y rfl
      simp [List.dropWhile_cons, this]

/-- `dropWhile` keeps the last element when its result is non-empty. -/
theorem getLast?_dropWhile {α : Type} (p : α → Bool) (l : List α)
    (hne : l.dropWhile p ≠ []) :
    (l.dropWhile p).getLast? = l.getLast? := by
  obtain ⟨pre, hpre⟩ := List.dropWhile_suffix p (l := l)
  conv_rhs => rw [← hpre]
  rw [List.getLast?_append]
  cases hm : (l.dropWhile p).getLast? with
  | none => exact absurd (List.getLast?_eq_none_iff.mp hm) hne
  | some y => simp [Option.or]

/-- Trimming is idempotent: a trimmed name equals its own trim. -/
theorem jsTrim_idem (s : String) : jsTrim (jsTrim s) = jsTrim s := by
  unfold jsTrim
  congr 1
  set a := trimLeftL s.data with ha
  set m := a.reverse.dropWhile isJsSpace with hm
  have hstep1 : trimLeftL (trimRightL a) = trimRightL a := by
    apply dropWhile_eq_self_of_head
    intro x hx
    rw [trimRightL] at hx
    rw [List.head?_reverse] at hx
    have hmne : m ≠ [] := by
      intro hnil
      rw [← hm] at hx
      rw [hnil] at hx
      simp at hx
    rw [← hm] at hx
    rw [getLast?_dropWhile isJsSpace a.reverse hmne] at hx
    rw [List.getLast?_reverse] at hx
    exact head?_dropWhile_false isJsSpace a x (by
      rw [ha]
      rw [trimLeftL]
      rw [dropWhile_idem]
      rw [← trimLeftL, ← ha]
      exact hx)
  rw [hstep1]
  show trimRightL (trimRightL a) = trimRightL a
  rw [trimRightL, trimRightL]
  rw [List.reverse_reverse]
  rw [← hm, dropWhile_idem]

/-- The empty roster satisfies the invariant. -/
theorem savedInv_nil : savedInv [] := ⟨List.nodup_nil, List.Pairwise.nil, by simp⟩

/-- `addSavedPlayer` preserves the invariant. -/
theorem addSavedPlayer_inv (l : List String) (name : String) (h : savedInv l) :
    savedInv (addSavedPlayer l name) := by
  unfold addSavedPlayer
  by_cases h1 : jsTrim name = ""
  · simpa [h1] using h
  · by_cases h2 : jsTrim name ∈ l
    · simpa [h1, h2] using h
    · simp only [h1, h2, if_false, if_neg, not_false_iff]
      have hperm : List.Perm (jsSort (l ++ [jsTrim name])) (l ++ [jsTrim name]) :=
        List.perm_insertionSort jsLeP _
      refine ⟨?_, ?_, ?_⟩
      · refine hperm.symm.nodup ?_
        rw [List.nodup_append]
        exact ⟨h.1, List.nodup_singleton _, by simp [h2]⟩
      · exact List.sorted_insertionSort jsLeP _
      · intro x hx
        have hx' : x ∈ l ++ [jsTrim name] := hperm.mem_iff.mp hx
        rcases List.mem_append.mp hx' with hxl | hxt
        · exact h.2.2 x hxl
        · have hxeq : x = jsTrim name := by simpa using hxt
          subst hxeq
          exact ⟨jsTrim_idem name, h1⟩

/-- `removeSavedPlayer` preserves the invariant. -/
theorem removeSavedPlayer_inv (l : List String) (name : String) (h : savedInv l) :
    savedInv (removeSavedPlayer l name) := by
  refine ⟨h.1.filter _, h.2.1.filter _, ?_⟩
  intro x hx
  exact h.2.2 x (List.mem_of_mem_filter hx)

/-- The invariant is preserved through any sequence of roster actions. -/
theorem runSavedOps_inv (ops : List SavedOp) :
    ∀ l, savedInv l → savedInv (ops.foldl applySavedOp l) := by
  induction ops with
  | nil => exact fun l h => h
  | cons op ops ih =>
      intro l h
      refine ih _ ?_
      cases op with
      | add name => exact addSavedPlayer_inv l name h
      | remove name => exact removeSavedPlayer_inv l name h

/-- Claim C10: from the empty roster, any sequence of add/remove operations
leaves a duplicate-free list, sorted in JS default string order, whose
entries are non-empty and equal to their own trim; adding a blank,
whitespace-only or already-present name is a no-op. -/
theorem claim_C10 (ops : List SavedOp) (l : List String) (name : String) :
    savedInv (runSavedOps ops)
    ∧ (jsTrim name = "" → addSavedPlayer l name = l)
    ∧ (name ∈ l → jsTrim name = name → addSavedPlayer l name = l) := by
  refine ⟨runSavedOps_inv ops [] savedInv_nil,
    fun h => by simp [addSavedPlayer, h], fun hmem htr => ?_⟩
  unfold addSavedPlayer
  rw [htr]
  by_cases h0 : name = ""
  · simp [h0]
  · simp [h0, hmem]
